import Mathlib

/-!
Shallow embedding of `src/loader.rs` (the chunk-loading and caching core):
the `Chunk` integrity-checked factory, the two-tier cache (weak dedup map and
bounded LRU retention cache), the single-chunk fetch walk over local caches and
remote sources, the batch fetch, and the remote GET retry loop.

The embedding models the production configuration (the `test_vfs` feature is
off): the early-return fast paths guarded by `#[cfg(not(feature = "test_vfs"))]`
are active and the `test_vfs`-only assertions are compiled out.

External collaborators (the hash functions from `directory_schema`, the
snapshot granularity from `tracker`, and the name encoding from
`replication_buffer`) are not part of `src/`; they are modelled as parameters
of an `Env` record or, for the name encoding, from the spec's description.
Bytes are modelled as `List Nat`, opaque error payloads as `Nat`.
-/

deriving instance DecidableEq for Except

namespace Verneuil

/-- `umash::Fingerprint`: a pair of 64-bit hash words.  The code only ever
compares fingerprints for equality and reads `hash[0]`, so we model the two
words as plain naturals. -/
structure Fingerprint where
  hash0 : Nat
  hash1 : Nat
deriving DecidableEq

/-- A content-addressed chunk: `struct Chunk { fprint, payload, _use_constructor: () }`.
The private `_use_constructor` field (which forces construction through
`Chunk::new`) is a Rust visibility device with no computational content and is
not represented. -/
structure Chunk where
  fprint : Fingerprint
  payload : List Nat
deriving DecidableEq

/-- Outcome of one `source.get_object(name)` call: `Ok((payload, code))` or a
transport-level `Err` (modelled with an opaque numeric payload). -/
inductive GetResult where
  | ok (payload : List Nat) (code : Nat)
  | err (e : Nat)
deriving DecidableEq

/-- The error values produced by `loader.rs`, one constructor per `Err` site:
`fresh_error!` in `Chunk::new`, `chain_error!` in `load_from_cache`,
`chain_error!` for non-retryable statuses in `load_from_source`, and
`chain_warn!` at the retry limit.  `unreachablePanic` is a marker for the
`std::unreachable!()` after the retry loop; it is proved unreachable. -/
inductive LoaderError where
  | contentMismatch (fprint : Fingerprint) (actualHash : Nat) (len : Nat)
  | localIoError (e : Nat)
  | remoteRequestError (body : List Nat) (code : Nat)
  | retryLimitExceeded (last : GetResult)
  | unreachablePanic
deriving DecidableEq

/-- The external collaborators consumed by `loader.rs`:
`crate::tracker::SNAPSHOT_GRANULARITY`,
`crate::directory_schema::hash_file_chunk` and
`crate::directory_schema::fingerprint_file_chunk`.  They are opaque to the
loader, so the embedding is parameterised over them. -/
structure Env where
  snapshot_granularity : Nat
  hash_file_chunk : List Nat → Nat
  fingerprint_file_chunk : List Nat → Fingerprint

/-- `const LOAD_RETRY_LIMIT: i32 = 3`. -/
def LOAD_RETRY_LIMIT : Nat := 3

/-- `const LRU_CACHE_SIZE: usize = 128`. -/
def LRU_CACHE_SIZE : Nat := 128

/-- `Chunk::new(fprint, payload)`: checks that the payload's cheap hash matches
the first 64-bit half of the fingerprint, and otherwise fails with the
`fresh_error!` carrying the fingerprint, the actual hash and the payload
length.  (The `test_vfs`-only assertion of the full fingerprint is compiled
out in production.) -/
def Chunk.new (env : Env) (fprint : Fingerprint) (payload : List Nat) :
    Except LoaderError Chunk :=
  let actual_hash := env.hash_file_chunk payload
  if actual_hash ≠ fprint.hash0 then
    .error (.contentMismatch fprint actual_hash payload.length)
  else
    .ok { fprint := fprint, payload := payload }

/-- The retry loop of `load_from_source`: `for i in 0..=LOAD_RETRY_LIMIT`.
`i` is the loop variable; `fuel` is the number of loop iterations left
(`LOAD_RETRY_LIMIT + 1 - i` at the top-level call), so running out of fuel is
exactly falling off the loop's end into `std::unreachable!()`.  The match arms
mirror the Rust match: `Ok((payload, 200))`, `Ok((_, 404))`,
`Ok((body, code)) if code < 500 && code != 429`, and the catch-all retry arm
(whose backoff sleep has no observable value-level effect). -/
def load_from_source_loop (get : Nat → GetResult) :
    Nat → Nat → Except LoaderError (Option (List Nat))
  | _, 0 => .error .unreachablePanic
  | i, fuel + 1 =>
    match get i with
    | .ok payload code =>
      if code = 200 then .ok (some payload)
      else if code = 404 then .ok none
      else if code < 500 ∧ code ≠ 429 then .error (.remoteRequestError payload code)
      else if i = LOAD_RETRY_LIMIT then .error (.retryLimitExceeded (.ok payload code))
      else load_from_source_loop get (i + 1) fuel
    | .err e =>
      if i = LOAD_RETRY_LIMIT then .error (.retryLimitExceeded (.err e))
      else load_from_source_loop get (i + 1) fuel

/-- `load_from_source(source, name)`.  A source's successive GET outcomes for
one name are modelled as a function from the attempt index to the outcome. -/
def load_from_source (get : Nat → GetResult) : Except LoaderError (Option (List Nat)) :=
  load_from_source_loop get 0 (LOAD_RETRY_LIMIT + 1)

/-- Whether a GET outcome lands in the catch-all retry arm of
`load_from_source`: a transport error, or a status that is none of 200, 404,
and not in the immediate-failure guard `code < 500 && code != 429`. -/
def GetResult.isRetryable : GetResult → Bool
  | .ok _ code => code ≠ 200 ∧ code ≠ 404 ∧ (500 ≤ code ∨ code = 429)
  | .err _ => true

/-- Outcome of `std::fs::read` on one path: the buffer, a `NotFound` error, or
any other I/O error (modelled with an opaque numeric payload). -/
inductive FsRead where
  | ok (buf : List Nat)
  | notFound
  | ioError (e : Nat)
deriving DecidableEq

/-- `load_from_cache(prefix, name)`: `Ok(buf)` becomes `Ok(Some(buf))`, a
`NotFound` error becomes `Ok(None)`, and any other error is surfaced via
`chain_error!`.  The filesystem read of `prefix.join(name)` is the function
value `read` supplied by the cache directory being walked. -/
def load_from_cache (read : FsRead) : Except LoaderError (Option (List Nat)) :=
  match read with
  | .ok buf => .ok (some buf)
  | .notFound => .ok none
  | .ioError e => .error (.localIoError e)

/-- Modelled from the spec: `crate::replication_buffer::fingerprint_chunk_name`
is not under `src/`.  The spec describes it as a deterministic, collision-free
encoding of a fingerprint into a lookup name used both as a filename and as an
object-store key; we model the name type as `Fingerprint` itself and the
encoding as the identity, which is deterministic and collision-free. -/
def fingerprint_chunk_name (fprint : Fingerprint) : Fingerprint := fprint

/-- `ZERO_FILLED_CHUNK`: the lazily initialised `(Fingerprint, Arc<Chunk>)`
pair for the all-zero payload of `SNAPSHOT_GRANULARITY` bytes.  The
`Chunk::new(..).expect("fprint must match")` relies on the collaborator
guarantee that `hash_file_chunk(p)` equals `fingerprint_file_chunk(p).hash[0]`;
the model takes the success value directly. -/
def ZERO_FILLED_CHUNK (env : Env) : Fingerprint × Chunk :=
  let payload := List.replicate env.snapshot_granularity 0
  let fprint := env.fingerprint_file_chunk payload
  (fprint, { fprint := fprint, payload := payload })

/-- An entry of `LIVE_CHUNKS` maps a fingerprint to a `Weak<Chunk>`.  A weak
reference is modelled by what `upgrade()` yields at the instant the map is
consulted: `some c` for a still-live chunk, `none` for a dangling reference. -/
abbrev LiveMap := List (Fingerprint × Option Chunk)

/-- `CACHED_CHUNKS`: the LRU list of strong references, most recently used
first. -/
abbrev LruList := List (Fingerprint × Chunk)

/-- The two process-wide cache structures of `loader.rs`: the `LIVE_CHUNKS`
dedup map of weak references and the `CACHED_CHUNKS` bounded LRU of strong
references. -/
structure CacheState where
  live_chunks : LiveMap
  cached_chunks : LruList
deriving DecidableEq

/-- `HashMap::get` on an association list (first matching key wins; the
insert below keeps keys unique). -/
def map_lookup (m : LiveMap) (k : Fingerprint) : Option (Option Chunk) :=
  (m.find? (fun p => p.1 = k)).map (fun p => p.2)

/-- `HashMap::remove`. -/
def map_remove (m : LiveMap) (k : Fingerprint) : LiveMap :=
  m.eraseP (fun p => p.1 = k)

/-- `HashMap::insert` (replaces any existing entry for the key). -/
def map_insert (m : LiveMap) (k : Fingerprint) (v : Option Chunk) : LiveMap :=
  (k, v) :: m.eraseP (fun p => p.1 = k)

/-- `lru::LruCache::put` on a capacity-`LRU_CACHE_SIZE` cache: the key moves
to the most-recently-used position (replacing any previous entry for the same
key), and if the cache would exceed its capacity the least-recently-used entry
is evicted. -/
def lru_put (cache : LruList) (k : Fingerprint) (v : Chunk) : LruList :=
  ((k, v) :: cache.filter (fun p => p.1 ≠ k)).take LRU_CACHE_SIZE

/-- `touch_cached_chunk(chunk)`: `CACHED_CHUNKS.put(chunk.fprint, chunk)`. -/
def touch_cached_chunk (s : CacheState) (chunk : Chunk) : CacheState :=
  { s with cached_chunks := lru_put s.cached_chunks chunk.fprint chunk }

/-- `update_cache(chunk)`: insert a weak reference into `LIVE_CHUNKS` (the
chunk is alive, so the weak reference upgrades), then touch the LRU. -/
def update_cache (s : CacheState) (chunk : Chunk) : CacheState :=
  touch_cached_chunk
    { s with live_chunks := map_insert s.live_chunks chunk.fprint (some chunk) }
    chunk

/-- `fetch_from_cache(key)`: look up `LIVE_CHUNKS`; if the weak reference
upgrades, touch the LRU and return the chunk, otherwise return `None` without
touching anything. -/
def fetch_from_cache (s : CacheState) (key : Fingerprint) : Option Chunk × CacheState :=
  match map_lookup s.live_chunks key with
  | some (some chunk) => (some chunk, touch_cached_chunk s chunk)
  | _ => (none, s)

/-- `impl Drop for Chunk`, acting on the `LIVE_CHUNKS` map: remove the entry
for the dropped chunk's fingerprint; if the removed weak reference still
upgrades (a different, newer chunk was registered under the same fingerprint),
reinsert it under the live chunk's fingerprint. -/
def chunk_drop (m : LiveMap) (fprint : Fingerprint) : LiveMap :=
  match map_lookup m fprint with
  | none => m
  | some weak =>
    let m2 := map_remove m fprint
    match weak with
    | some strong => map_insert m2 strong.fprint (some strong)
    | none => m2

/-- A `Loader`: the ordered local cache directories (each modelled by what
reading a given name from that directory yields) and the ordered remote
sources (each modelled by its per-name, per-attempt GET outcomes). -/
structure Loader where
  local_caches : List (Fingerprint → FsRead)
  remote_sources : List (Fingerprint → Nat → GetResult)

/-- The common shape of the two source loops inside `fetch_chunk`, in
production mode (`contents` is `None` on entry, and a hit returns
immediately): probe each source in order; a probe error propagates and stops
the walk; a hit is validated by `Chunk::new` (whose error also propagates) and
then cached via `update_cache`, and the walk stops. -/
def walk_sources {α : Type} (env : Env) (fprint : Fingerprint)
    (probe : α → Except LoaderError (Option (List Nat))) (s : CacheState) :
    List α → Except LoaderError (Option Chunk) × CacheState
  | [] => (.ok none, s)
  | src :: rest =>
    match probe src with
    | .error e => (.error e, s)
    | .ok none => walk_sources env fprint probe s rest
    | .ok (some bytes) =>
      match Chunk.new env fprint bytes with
      | .error e => (.error e, s)
      | .ok chunk => (.ok (some chunk), update_cache s chunk)

/-- The `for path in &self.local_caches` loop of `fetch_chunk`: each directory
is probed with `load_from_cache(path, name)`. -/
def walk_local_caches (env : Env) (fprint name : Fingerprint) (s : CacheState)
    (ls : List (Fingerprint → FsRead)) : Except LoaderError (Option Chunk) × CacheState :=
  walk_sources env fprint (fun cache => load_from_cache (cache name)) s ls

/-- The `for source in &self.remote_sources` loop of `fetch_chunk`: each
bucket is probed with the retrying `load_from_source(source, name)`. -/
def walk_remote_sources (env : Env) (fprint name : Fingerprint) (s : CacheState)
    (rs : List (Fingerprint → Nat → GetResult)) :
    Except LoaderError (Option Chunk) × CacheState :=
  walk_sources env fprint (fun source => load_from_source (source name)) s rs

/-- `Loader::fetch_chunk(fprint)` in production mode: the zero-chunk fast
path, then the cache fast path, then the ordered walk of local caches, then
the ordered walk of remote sources, returning `Ok(None)` if nothing was
found.  The global cache state is threaded explicitly. -/
def fetch_chunk (env : Env) (L : Loader) (s : CacheState) (fprint : Fingerprint) :
    Except LoaderError (Option Chunk) × CacheState :=
  if fprint = (ZERO_FILLED_CHUNK env).1 then
    (.ok (some (ZERO_FILLED_CHUNK env).2), s)
  else
    match fetch_from_cache s fprint with
    | (some chunk, s1) => (.ok (some chunk), s1)
    | (none, s1) =>
      let name := fingerprint_chunk_name fprint
      match walk_local_caches env fprint name s1 L.local_caches with
      | (.ok none, s2) => walk_remote_sources env fprint name s2 L.remote_sources
      | other => other

/-- `collect::<Result<Vec<_>, _>>()` over the per-fingerprint fetches of
`fetch_all_chunks`: the first error short-circuits the whole collection. -/
def collect_results (fetch_one : Fingerprint → Except LoaderError (Option Chunk)) :
    List Fingerprint → Except LoaderError (List (Option Chunk))
  | [] => .ok []
  | f :: rest =>
    match fetch_one f with
    | .error e => .error e
    | .ok c =>
      match collect_results fetch_one rest with
      | .error e => .error e
      | .ok cs => .ok (c :: cs)

/-- The final `filter_map` of `fetch_all_chunks`: keep the found chunks,
keyed by their fingerprint. -/
def chunk_entries (chunks : List (Option Chunk)) : List (Fingerprint × Chunk) :=
  chunks.filterMap (fun c => c.map (fun chunk => (chunk.fprint, chunk)))

/-- `Loader::fetch_all_chunks(fprints)`: deduplicate the requested
fingerprints, shuffle them (the random permutation is a parameter), fetch each
one, fail if any fetch failed, and return the found `(fingerprint, chunk)`
entries.  The rayon parallel map over the pool is modelled as a map over the
shuffled list: each fingerprint's fetch outcome is the function `fetch_one`
(abstracting `self.fetch_chunk` together with the shared cache state), and the
result mapping is order-insensitive. -/
def fetch_all_chunks (fetch_one : Fingerprint → Except LoaderError (Option Chunk))
    (shuffle : List Fingerprint → List Fingerprint) (fprints : List Fingerprint) :
    Except LoaderError (List (Fingerprint × Chunk)) :=
  let shuffled_targets := shuffle fprints.dedup
  match collect_results fetch_one shuffled_targets with
  | .error e => .error e
  | .ok chunks => .ok (chunk_entries chunks)

/-- A concrete environment used by witnesses and counterexamples: snapshot
granularity 2, cheap hash = payload length, full fingerprint =
(payload length, 0); it satisfies the collaborator guarantee that the cheap
hash is the fingerprint's first half. -/
def envX : Env where
  snapshot_granularity := 2
  hash_file_chunk := fun payload => payload.length
  fingerprint_file_chunk := fun payload => { hash0 := payload.length, hash1 := 0 }

theorem load_from_source_loop_ne_panic (get : Nat → GetResult) :
    ∀ fuel i, i + fuel = LOAD_RETRY_LIMIT + 1 → 1 ≤ fuel →
      load_from_source_loop get i fuel ≠ .error .unreachablePanic := by
  intro fuel
  induction fuel with
  | zero => intro i _ h1; exact absurd h1 (by omega)
  | succ n ih =>
    intro i hi _
    cases hg : get i with
    | ok payload code =>
      by_cases h200 : code = 200
      · simp [load_from_source_loop, hg, h200]
      · by_cases h404 : code = 404
        · simp [load_from_source_loop, hg, h200, h404]
        · by_cases hfatal : code < 500 ∧ code ≠ 429
          · simp [load_from_source_loop, hg, h200, h404, hfatal]
          · by_cases hlast : i = LOAD_RETRY_LIMIT
            · subst hlast
              simp [load_from_source_loop, hg, h200, h404, hfatal]
            · have step : load_from_source_loop get i (n + 1)
                  = load_from_source_loop get (i + 1) n := by
                simp [load_from_source_loop, hg, h200, h404, hfatal, hlast]
              rw [step]
              exact ih (i + 1) (by omega) (by omega)
    | err e =>
      by_cases hlast : i = LOAD_RETRY_LIMIT
      · subst hlast
        simp [load_from_source_loop, hg]
      · have step : load_from_source_loop get i (n + 1)
            = load_from_source_loop get (i + 1) n := by
          simp [load_from_source_loop, hg, hlast]
        rw [step]
        exact ih (i + 1) (by omega) (by omega)

/-- Claim C10: every call of `load_from_source` returns from within the retry
loop itself; the `std::unreachable!()` placed after the loop (modelled by the
`unreachablePanic` marker, produced exactly when the loop's iterations are
exhausted without a return) is never executed. -/
theorem C10_load_from_source_never_panics (get : Nat → GetResult) :
    load_from_source get ≠ .error .unreachablePanic :=
  load_from_source_loop_ne_panic get (LOAD_RETRY_LIMIT + 1) 0 rfl (by omega)

/-- Claim C5: `Chunk::new(fprint, payload)` returns a chunk whose payload is
the input exactly when the payload's cheap hash matches the fingerprint's
primary half, and otherwise fails with the content-mismatch error carrying the
expected fingerprint, the actual computed hash, and the payload length. -/
theorem C5_chunk_new_integrity (env : Env) (fprint : Fingerprint) (payload : List Nat) :
    (env.hash_file_chunk payload = fprint.hash0 →
      Chunk.new env fprint payload = .ok { fprint := fprint, payload := payload }) ∧
    (env.hash_file_chunk payload ≠ fprint.hash0 →
      Chunk.new env fprint payload
        = .error (.contentMismatch fprint (env.hash_file_chunk payload) payload.length)) := by
  constructor
  · intro h
    simp [Chunk.new, h]
  · intro h
    simp [Chunk.new, h]

theorem C5_chunk_new_integrity_witness :
    Chunk.new envX { hash0 := 1, hash1 := 0 } [5]
        = .ok { fprint := { hash0 := 1, hash1 := 0 }, payload := [5] } ∧
    Chunk.new envX { hash0 := 7, hash1 := 0 } [5]
        = .error (.contentMismatch { hash0 := 7, hash1 := 0 } 1 1) :=
  ⟨(C5_chunk_new_integrity envX { hash0 := 1, hash1 := 0 } [5]).1 (by decide),
   (C5_chunk_new_integrity envX { hash0 := 7, hash1 := 0 } [5]).2 (by decide)⟩

/-- Claim C3 (amended): on the first attempt, status 200 returns the payload,
404 returns a successful absence, any other status below 500 and different
from 429 fails immediately without a retry, and status 429, any status of 500
or above, or a transport error leads to a second attempt (the loop continues
at attempt index 1). -/
theorem C3_remote_get_classification (get : Nat → GetResult)
    (payload : List Nat) (code e : Nat) :
    (get 0 = .ok payload 200 → load_from_source get = .ok (some payload)) ∧
    (get 0 = .ok payload 404 → load_from_source get = .ok none) ∧
    (get 0 = .ok payload code → code ≠ 200 → code ≠ 404 → code < 500 → code ≠ 429 →
      load_from_source get = .error (.remoteRequestError payload code)) ∧
    (get 0 = .ok payload code → 500 ≤ code ∨ code = 429 →
      load_from_source get = load_from_source_loop get 1 LOAD_RETRY_LIMIT) ∧
    (get 0 = .err e →
      load_from_source get = load_from_source_loop get 1 LOAD_RETRY_LIMIT) := by
  refine ⟨?_, ?_, ?_, ?_, ?_⟩
  · intro hg
    simp [load_from_source, load_from_source_loop, hg]
  · intro hg
    simp [load_from_source, load_from_source_loop, hg]
  · intro hg h200 h404 h500 h429
    simp [load_from_source, load_from_source_loop, hg, h200, h404, h500, h429]
  · intro hg hcode
    have h200 : ¬(code = 200) := by rcases hcode with h | h <;> omega
    have h404 : ¬(code = 404) := by rcases hcode with h | h <;> omega
    have hfatal : ¬(code < 500 ∧ code ≠ 429) := by
      rcases hcode with h | h
      · omega
      · simp [h]
    have hlast : ¬((0 : Nat) = LOAD_RETRY_LIMIT) := by decide
    simp [load_from_source, load_from_source_loop, hg, h200, h404, hfatal, hlast]
  · intro hg
    have hlast : ¬((0 : Nat) = LOAD_RETRY_LIMIT) := by decide
    simp [load_from_source, load_from_source_loop, hg, hlast]

theorem C3_remote_get_classification_witness :
    load_from_source (fun _ => .ok [5] 200) = .ok (some [5]) ∧
    load_from_source (fun _ => .ok [] 404) = .ok none ∧
    load_from_source (fun _ => .ok [] 403) = .error (.remoteRequestError [] 403) ∧
    load_from_source (fun _ => .err 0)
      = load_from_source_loop (fun _ => .err 0) 1 LOAD_RETRY_LIMIT :=
  ⟨(C3_remote_get_classification (fun _ => .ok [5] 200) [5] 0 0).1 rfl,
   (C3_remote_get_classification (fun _ => .ok [] 404) [] 0 0).2.1 rfl,
   (C3_remote_get_classification (fun _ => .ok [] 403) [] 403 0).2.2.1 rfl
     (by decide) (by decide) (by decide) (by decide),
   (C3_remote_get_classification (fun _ => .err 0) [] 0 0).2.2.2.2 rfl⟩

/-- Claim C3 counterexample: status 301 is not in the 4xx family, yet a single
GET answering 301 fails immediately with the non-retried request error — so
the statuses causing an immediate, non-retried failure are not exactly the
4xx family minus 429. -/
theorem C3_counterexample :
    load_from_source (fun _ => .ok [] 301) = .error (.remoteRequestError [] 301) ∧
    ¬(400 ≤ 301 ∧ 301 ≤ 499) := by
  constructor
  · decide
  · decide

theorem load_from_source_loop_congr (get get' : Nat → GetResult)
    (h : ∀ j, j ≤ LOAD_RETRY_LIMIT → get j = get' j) :
    ∀ fuel i, i + fuel = LOAD_RETRY_LIMIT + 1 →
      load_from_source_loop get i fuel = load_from_source_loop get' i fuel := by
  intro fuel
  induction fuel with
  | zero => intro i _; rfl
  | succ n ih =>
    intro i hi
    have hgi : get i = get' i := h i (by omega)
    cases hg : get' i with
    | ok payload code =>
      have hg2 : get i = .ok payload code := hgi.trans hg
      by_cases h200 : code = 200
      · simp [load_from_source_loop, hg, hg2, h200]
      · by_cases h404 : code = 404
        · simp [load_from_source_loop, hg, hg2, h200, h404]
        · by_cases hfatal : code < 500 ∧ code ≠ 429
          · simp [load_from_source_loop, hg, hg2, h200, h404, hfatal]
          · by_cases hlast : i = LOAD_RETRY_LIMIT
            · subst hlast
              simp [load_from_source_loop, hg, hg2, h200, h404, hfatal]
            · have step : load_from_source_loop get i (n + 1)
                  = load_from_source_loop get (i + 1) n := by
                simp [load_from_source_loop, hg2, h200, h404, hfatal, hlast]
              have step' : load_from_source_loop get' i (n + 1)
                  = load_from_source_loop get' (i + 1) n := by
                simp [load_from_source_loop, hg, h200, h404, hfatal, hlast]
              rw [step, step']
              exact ih (i + 1) (by omega)
    | err e =>
      have hg2 : get i = .err e := hgi.trans hg
      by_cases hlast : i = LOAD_RETRY_LIMIT
      · subst hlast
        simp [load_from_source_loop, hg, hg2]
      · have step : load_from_source_loop get i (n + 1)
            = load_from_source_loop get (i + 1) n := by
          simp [load_from_source_loop, hg2, hlast]
        have step' : load_from_source_loop get' i (n + 1)
            = load_from_source_loop get' (i + 1) n := by
          simp [load_from_source_loop, hg, hlast]
        rw [step, step']
        exact ih (i + 1) (by omega)

theorem load_from_source_loop_retry_all (get : Nat → GetResult) :
    ∀ fuel i, i + fuel = LOAD_RETRY_LIMIT + 1 → 1 ≤ fuel →
      (∀ j, i ≤ j → j ≤ LOAD_RETRY_LIMIT → (get j).isRetryable = true) →
      load_from_source_loop get i fuel
        = .error (.retryLimitExceeded (get LOAD_RETRY_LIMIT)) := by
  intro fuel
  induction fuel with
  | zero => intro i _ h1 _; exact absurd h1 (by omega)
  | succ n ih =>
    intro i hi _ hr
    have hri := hr i (le_refl i) (by omega)
    cases hg : get i with
    | ok payload code =>
      rw [hg] at hri
      simp only [GetResult.isRetryable, decide_eq_true_eq] at hri
      obtain ⟨h200, h404, hor⟩ := hri
      have hfatal : ¬(code < 500 ∧ code ≠ 429) := by
        rcases hor with h | h
        · omega
        · simp [h]
      by_cases hlast : i = LOAD_RETRY_LIMIT
      · subst hlast
        simp [load_from_source_loop, hg, h200, h404, hfatal]
      · have step : load_from_source_loop get i (n + 1)
            = load_from_source_loop get (i + 1) n := by
          simp [load_from_source_loop, hg, h200, h404, hfatal, hlast]
        rw [step]
        exact ih (i + 1) (by omega) (by omega) (fun j hj hj2 => hr j (by omega) hj2)
    | err e =>
      by_cases hlast : i = LOAD_RETRY_LIMIT
      · subst hlast
        simp [load_from_source_loop, hg]
      · have step : load_from_source_loop get i (n + 1)
            = load_from_source_loop get (i + 1) n := by
          simp [load_from_source_loop, hg, hlast]
        rw [step]
        exact ih (i + 1) (by omega) (by omega) (fun j hj hj2 => hr j (by omega) hj2)

theorem load_from_source_loop_success (get : Nat → GetResult) (p : List Nat) (c : Nat)
    (hc : c = 200 ∨ c = 404) :
    ∀ fuel i k, i + fuel = LOAD_RETRY_LIMIT + 1 → i ≤ k → k ≤ LOAD_RETRY_LIMIT →
      (∀ j, i ≤ j → j < k → (get j).isRetryable = true) →
      get k = .ok p c →
      load_from_source_loop get i fuel
        = if c = 200 then .ok (some p) else .ok none := by
  intro fuel
  induction fuel with
  | zero => intro i k hi hik hk _ _; exact absurd hi (by omega)
  | succ n ih =>
    intro i k hi hik hk hr hgk
    by_cases hik' : i = k
    · subst hik'
      rcases hc with h | h
      · subst h
        simp [load_from_source_loop, hgk]
      · subst h
        simp [load_from_source_loop, hgk]
    · have hri := hr i (le_refl i) (by omega)
      cases hg : get i with
      | ok payload code =>
        rw [hg] at hri
        simp only [GetResult.isRetryable, decide_eq_true_eq] at hri
        obtain ⟨h200, h404, hor⟩ := hri
        have hfatal : ¬(code < 500 ∧ code ≠ 429) := by
          rcases hor with h | h
          · omega
          · simp [h]
        have hlast : ¬(i = LOAD_RETRY_LIMIT) := by omega
        have step : load_from_source_loop get i (n + 1)
            = load_from_source_loop get (i + 1) n := by
          simp [load_from_source_loop, hg, h200, h404, hfatal, hlast]
        rw [step]
        exact ih (i + 1) k (by omega) (by omega) hk
          (fun j hj hj2 => hr j (by omega) hj2) hgk
      | err e =>
        have hlast : ¬(i = LOAD_RETRY_LIMIT) := by omega
        have step : load_from_source_loop get i (n + 1)
            = load_from_source_loop get (i + 1) n := by
          simp [load_from_source_loop, hg, hlast]
        rw [step]
        exact ih (i + 1) k (by omega) (by omega) hk
          (fun j hj hj2 => hr j (by omega) hj2) hgk

/-- Claim C4: `load_from_source` makes at most `LOAD_RETRY_LIMIT + 1 = 4`
GET attempts (its result depends only on the outcomes of attempts 0 through
3); a 200 or 404 on any attempt, the earlier attempts all being retryable,
returns immediately with no error; and when all four attempts are retryable
failures, the call fails with the retry-limit error wrapping the last
attempt's outcome. -/
theorem C4_retry_budget (get get' : Nat → GetResult) :
    ((∀ j, j ≤ LOAD_RETRY_LIMIT → get j = get' j) →
      load_from_source get = load_from_source get') ∧
    ((∀ j, j ≤ LOAD_RETRY_LIMIT → (get j).isRetryable = true) →
      load_from_source get = .error (.retryLimitExceeded (get LOAD_RETRY_LIMIT))) ∧
    (∀ k p, k ≤ LOAD_RETRY_LIMIT → (∀ j, j < k → (get j).isRetryable = true) →
      get k = .ok p 200 → load_from_source get = .ok (some p)) ∧
    (∀ k p, k ≤ LOAD_RETRY_LIMIT → (∀ j, j < k → (get j).isRetryable = true) →
      get k = .ok p 404 → load_from_source get = .ok none) := by
  refine ⟨?_, ?_, ?_, ?_⟩
  · intro h
    exact load_from_source_loop_congr get get' h (LOAD_RETRY_LIMIT + 1) 0 rfl
  · intro h
    exact load_from_source_loop_retry_all get (LOAD_RETRY_LIMIT + 1) 0 rfl (by omega)
      (fun j _ hj => h j hj)
  · intro k p hk hr hgk
    have h := load_from_source_loop_success get p 200 (Or.inl rfl)
      (LOAD_RETRY_LIMIT + 1) 0 k rfl (by omega) hk (fun j _ hj => hr j hj) hgk
    simpa using h
  · intro k p hk hr hgk
    have h := load_from_source_loop_success get p 404 (Or.inr rfl)
      (LOAD_RETRY_LIMIT + 1) 0 k rfl (by omega) hk (fun j _ hj => hr j hj) hgk
    simpa using h

theorem C4_retry_budget_witness :
    load_from_source (fun _ => .ok [] 503)
      = .error (.retryLimitExceeded (.ok [] 503)) ∧
    load_from_source (fun i => if i < 3 then .ok [] 503 else .ok [7] 200)
      = .ok (some [7]) :=
  ⟨(C4_retry_budget (fun _ => .ok [] 503) (fun _ => .ok [] 503)).2.1
      (fun j _ => by decide),
   (C4_retry_budget (fun i => if i < 3 then .ok [] 503 else .ok [7] 200)
        (fun _ => .ok [] 503)).2.2.1 3 [7] (by decide)
      (fun j hj => by
        have h0 : j = 0 ∨ j = 1 ∨ j = 2 := by omega
        rcases h0 with h | h | h <;> subst h <;> decide)
      (by decide)⟩

theorem fetch_from_cache_fst_none (s : CacheState) (k : Fingerprint)
    (h : (fetch_from_cache s k).1 = none) :
    fetch_from_cache s k = (none, s) := by
  cases hm : map_lookup s.live_chunks k with
  | none => simp [fetch_from_cache, hm]
  | some w =>
    cases w with
    | none => simp [fetch_from_cache, hm]
    | some c =>
      have hc : (fetch_from_cache s k).1 = some c := by simp [fetch_from_cache, hm]
      rw [hc] at h
      exact absurd h (by simp)

theorem walk_sources_append_none {α : Type} (env : Env) (fprint : Fingerprint)
    (probe : α → Except LoaderError (Option (List Nat))) (s : CacheState)
    (ls1 rest : List α) :
    (∀ x ∈ ls1, probe x = .ok none) →
      walk_sources env fprint probe s (ls1 ++ rest)
        = walk_sources env fprint probe s rest := by
  induction ls1 with
  | nil => intro _; rfl
  | cons c cs ih =>
    intro h
    have hc : probe c = .ok none := h c (by simp)
    have step : walk_sources env fprint probe s ((c :: cs) ++ rest)
        = walk_sources env fprint probe s (cs ++ rest) := by
      simp [walk_sources, hc]
    rw [step]
    exact ih (fun x hx => h x (by simp [hx]))

theorem walk_sources_cons_hit_ok {α : Type} (env : Env) (fprint : Fingerprint)
    (probe : α → Except LoaderError (Option (List Nat))) (s : CacheState)
    (c : α) (rest : List α) (bytes : List Nat) (chunk : Chunk)
    (hc : probe c = .ok (some bytes))
    (hnew : Chunk.new env fprint bytes = .ok chunk) :
    walk_sources env fprint probe s (c :: rest)
      = (.ok (some chunk), update_cache s chunk) := by
  simp [walk_sources, hc, hnew]

theorem walk_sources_cons_hit_err {α : Type} (env : Env) (fprint : Fingerprint)
    (probe : α → Except LoaderError (Option (List Nat))) (s : CacheState)
    (c : α) (rest : List α) (bytes : List Nat) (e : LoaderError)
    (hc : probe c = .ok (some bytes))
    (hnew : Chunk.new env fprint bytes = .error e) :
    walk_sources env fprint probe s (c :: rest) = (.error e, s) := by
  simp [walk_sources, hc, hnew]

theorem walk_sources_cons_probe_err {α : Type} (env : Env) (fprint : Fingerprint)
    (probe : α → Except LoaderError (Option (List Nat))) (s : CacheState)
    (c : α) (rest : List α) (e : LoaderError)
    (hc : probe c = .error e) :
    walk_sources env fprint probe s (c :: rest) = (.error e, s) := by
  simp [walk_sources, hc]

theorem walk_sources_all_none {α : Type} (env : Env) (fprint : Fingerprint)
    (probe : α → Except LoaderError (Option (List Nat))) (s : CacheState)
    (ls : List α) :
    (∀ x ∈ ls, probe x = .ok none) →
      walk_sources env fprint probe s ls = (.ok none, s) := by
  intro h
  have := walk_sources_append_none env fprint probe s ls [] h
  simpa using this

theorem walk_sources_fst_ok_none {α : Type} (env : Env) (fprint : Fingerprint)
    (probe : α → Except LoaderError (Option (List Nat))) :
    ∀ (ls : List α) (s : CacheState),
      (walk_sources env fprint probe s ls).1 = .ok none →
      (∀ x ∈ ls, probe x = .ok none)
        ∧ walk_sources env fprint probe s ls = (.ok none, s) := by
  intro ls
  induction ls with
  | nil => intro s _; exact ⟨by simp, rfl⟩
  | cons c cs ih =>
    intro s h
    cases hc : probe c with
    | error e =>
      rw [walk_sources_cons_probe_err env fprint probe s c cs e hc] at h
      exact absurd h (by simp)
    | ok o =>
      cases o with
      | none =>
        have hw : walk_sources env fprint probe s (c :: cs)
            = walk_sources env fprint probe s cs := by
          simp [walk_sources, hc]
        rw [hw] at h
        obtain ⟨hall, heq⟩ := ih s h
        refine ⟨?_, hw.trans heq⟩
        intro x hx
        rcases List.mem_cons.mp hx with h1 | h1
        · subst h1; exact hc
        · exact hall x h1
      | some bytes =>
        cases hnew : Chunk.new env fprint bytes with
        | error e =>
          rw [walk_sources_cons_hit_err env fprint probe s c cs bytes e hc hnew] at h
          exact absurd h (by simp)
        | ok chunk =>
          rw [walk_sources_cons_hit_ok env fprint probe s c cs bytes chunk hc hnew] at h
          exact absurd h (by simp)

theorem fetch_chunk_local_phase (env : Env) (L : Loader) (s : CacheState)
    (fprint : Fingerprint)
    (hzero : fprint ≠ (ZERO_FILLED_CHUNK env).1)
    (hmiss : (fetch_from_cache s fprint).1 = none)
    (r : Except LoaderError (Option Chunk)) (s2 : CacheState)
    (hwalk : walk_local_caches env fprint (fingerprint_chunk_name fprint) s L.local_caches
      = (r, s2))
    (hr : r ≠ .ok none) :
    fetch_chunk env L s fprint = (r, s2) := by
  have h2 := fetch_from_cache_fst_none s fprint hmiss
  rcases r with e | co
  · simp [fetch_chunk, hzero, h2, hwalk]
  · rcases co with _ | c
    · exact absurd rfl hr
    · simp [fetch_chunk, hzero, h2, hwalk]

theorem fetch_chunk_remote_phase (env : Env) (L : Loader) (s : CacheState)
    (fprint : Fingerprint)
    (hzero : fprint ≠ (ZERO_FILLED_CHUNK env).1)
    (hmiss : (fetch_from_cache s fprint).1 = none)
    (hwalk : walk_local_caches env fprint (fingerprint_chunk_name fprint) s L.local_caches
      = (.ok none, s)) :
    fetch_chunk env L s fprint
      = walk_remote_sources env fprint (fingerprint_chunk_name fprint) s
          L.remote_sources := by
  have h2 := fetch_from_cache_fst_none s fprint hmiss
  simp [fetch_chunk, hzero, h2, hwalk]

/-- Claim C1: within one `fetch_chunk` call (off the zero-chunk and cache
fast paths), sources are tried strictly in configured order — every local
cache, in index order, before any remote source, remote sources in index
order — and the call short-circuits at the first source that yields the
content: once a local cache yields the chunk, the result does not depend on
the later local caches or on any remote source (so a chunk available from a
local cache is never fetched from a remote source), and symmetrically for the
first yielding remote source. -/
theorem C1_fetch_chunk_source_order (env : Env) (s : CacheState)
    (fprint : Fingerprint) (bytes : List Nat)
    (hzero : fprint ≠ (ZERO_FILLED_CHUNK env).1)
    (hmiss : (fetch_from_cache s fprint).1 = none) :
    (∀ (ls1 ls2 ls2' : List (Fingerprint → FsRead)) (c : Fingerprint → FsRead)
        (rs rs' : List (Fingerprint → Nat → GetResult)),
      (∀ x ∈ ls1, load_from_cache (x (fingerprint_chunk_name fprint)) = .ok none) →
      load_from_cache (c (fingerprint_chunk_name fprint)) = .ok (some bytes) →
      (fetch_chunk env ⟨ls1 ++ c :: ls2, rs⟩ s fprint
          = fetch_chunk env ⟨ls1 ++ c :: ls2', rs'⟩ s fprint ∧
        ∀ chunk, Chunk.new env fprint bytes = .ok chunk →
          fetch_chunk env ⟨ls1 ++ c :: ls2, rs⟩ s fprint
            = (.ok (some chunk), update_cache s chunk))) ∧
    (∀ (ls : List (Fingerprint → FsRead))
        (rs1 rs2 rs2' : List (Fingerprint → Nat → GetResult))
        (r : Fingerprint → Nat → GetResult),
      (∀ x ∈ ls, load_from_cache (x (fingerprint_chunk_name fprint)) = .ok none) →
      (∀ x ∈ rs1, load_from_source (x (fingerprint_chunk_name fprint)) = .ok none) →
      load_from_source (r (fingerprint_chunk_name fprint)) = .ok (some bytes) →
      (fetch_chunk env ⟨ls, rs1 ++ r :: rs2⟩ s fprint
          = fetch_chunk env ⟨ls, rs1 ++ r :: rs2'⟩ s fprint ∧
        ∀ chunk, Chunk.new env fprint bytes = .ok chunk →
          fetch_chunk env ⟨ls, rs1 ++ r :: rs2⟩ s fprint
            = (.ok (some chunk), update_cache s chunk))) := by
  constructor
  · intro ls1 ls2 ls2' c rs rs' hb hhit
    cases hnew : Chunk.new env fprint bytes with
    | ok chunk =>
      have main : ∀ (ls2x : List (Fingerprint → FsRead))
          (rsx : List (Fingerprint → Nat → GetResult)),
          fetch_chunk env ⟨ls1 ++ c :: ls2x, rsx⟩ s fprint
            = (.ok (some chunk), update_cache s chunk) := by
        intro ls2x rsx
        have hwalk : walk_local_caches env fprint (fingerprint_chunk_name fprint) s
            (ls1 ++ c :: ls2x) = (.ok (some chunk), update_cache s chunk) := by
          unfold walk_local_caches
          rw [walk_sources_append_none env fprint
            (fun cache => load_from_cache (cache (fingerprint_chunk_name fprint)))
            s ls1 (c :: ls2x) hb]
          exact walk_sources_cons_hit_ok env fprint _ s c ls2x bytes chunk hhit hnew
        exact fetch_chunk_local_phase env ⟨ls1 ++ c :: ls2x, rsx⟩ s fprint hzero hmiss
          (.ok (some chunk)) (update_cache s chunk) hwalk (by simp)
      refine ⟨(main ls2 rs).trans (main ls2' rs').symm, ?_⟩
      intro chunk' hch
      obtain rfl : chunk = chunk' := Except.ok.inj hch
      exact main ls2 rs
    | error e =>
      have main : ∀ (ls2x : List (Fingerprint → FsRead))
          (rsx : List (Fingerprint → Nat → GetResult)),
          fetch_chunk env ⟨ls1 ++ c :: ls2x, rsx⟩ s fprint = (.error e, s) := by
        intro ls2x rsx
        have hwalk : walk_local_caches env fprint (fingerprint_chunk_name fprint) s
            (ls1 ++ c :: ls2x) = (.error e, s) := by
          unfold walk_local_caches
          rw [walk_sources_append_none env fprint
            (fun cache => load_from_cache (cache (fingerprint_chunk_name fprint)))
            s ls1 (c :: ls2x) hb]
          exact walk_sources_cons_hit_err env fprint _ s c ls2x bytes e hhit hnew
        exact fetch_chunk_local_phase env ⟨ls1 ++ c :: ls2x, rsx⟩ s fprint hzero hmiss
          (.error e) s hwalk (by simp)
      refine ⟨(main ls2 rs).trans (main ls2' rs').symm, ?_⟩
      intro chunk' hch
      exact absurd hch (by simp)
  · intro ls rs1 rs2 rs2' r hlocal hb hhit
    have hwl : walk_local_caches env fprint (fingerprint_chunk_name fprint) s ls
        = (.ok none, s) :=
      walk_sources_all_none env fprint _ s ls hlocal
    cases hnew : Chunk.new env fprint bytes with
    | ok chunk =>
      have main : ∀ (rs2x : List (Fingerprint → Nat → GetResult)),
          fetch_chunk env ⟨ls, rs1 ++ r :: rs2x⟩ s fprint
            = (.ok (some chunk), update_cache s chunk) := by
        intro rs2x
        have hfc := fetch_chunk_remote_phase env ⟨ls, rs1 ++ r :: rs2x⟩ s fprint
          hzero hmiss hwl
        rw [hfc]
        show walk_sources env fprint
          (fun source => load_from_source (source (fingerprint_chunk_name fprint)))
          s (rs1 ++ r :: rs2x) = _
        rw [walk_sources_append_none env fprint
          (fun source => load_from_source (source (fingerprint_chunk_name fprint)))
          s rs1 (r :: rs2x) hb]
        exact walk_sources_cons_hit_ok env fprint _ s r rs2x bytes chunk hhit hnew
      refine ⟨(main rs2).trans (main rs2').symm, ?_⟩
      intro chunk' hch
      obtain rfl : chunk = chunk' := Except.ok.inj hch
      exact main rs2
    | error e =>
      have main : ∀ (rs2x : List (Fingerprint → Nat → GetResult)),
          fetch_chunk env ⟨ls, rs1 ++ r :: rs2x⟩ s fprint = (.error e, s) := by
        intro rs2x
        have hfc := fetch_chunk_remote_phase env ⟨ls, rs1 ++ r :: rs2x⟩ s fprint
          hzero hmiss hwl
        rw [hfc]
        show walk_sources env fprint
          (fun source => load_from_source (source (fingerprint_chunk_name fprint)))
          s (rs1 ++ r :: rs2x) = _
        rw [walk_sources_append_none env fprint
          (fun source => load_from_source (source (fingerprint_chunk_name fprint)))
          s rs1 (r :: rs2x) hb]
        exact walk_sources_cons_hit_err env fprint _ s r rs2x bytes e hhit hnew
      refine ⟨(main rs2).trans (main rs2').symm, ?_⟩
      intro chunk' hch
      exact absurd hch (by simp)

theorem C1_fetch_chunk_source_order_witness :
    fetch_chunk envX
        ⟨[fun _ => FsRead.ok [9], fun _ => FsRead.ioError 3],
         [fun _ _ => GetResult.err 0]⟩
        { live_chunks := [], cached_chunks := [] } { hash0 := 1, hash1 := 0 }
      = (.ok (some { fprint := { hash0 := 1, hash1 := 0 }, payload := [9] }),
         update_cache { live_chunks := [], cached_chunks := [] }
           { fprint := { hash0 := 1, hash1 := 0 }, payload := [9] }) :=
  (((C1_fetch_chunk_source_order envX { live_chunks := [], cached_chunks := [] }
      { hash0 := 1, hash1 := 0 } [9] (by decide) (by decide)).1
    [] [fun _ => FsRead.ioError 3] [] (fun _ => FsRead.ok [9])
    [fun _ _ => GetResult.err 0] []
    (fun x hx => absurd hx (List.not_mem_nil x))
    rfl).2
    { fprint := { hash0 := 1, hash1 := 0 }, payload := [9] } (by decide))

/-- Claim C6 counterexample: for the zero-chunk fingerprint itself, with an
empty cache and no configured sources at all (so the chunk is trivially
absent from every source), `fetch_chunk` returns the zero-chunk singleton,
not the empty result `Ok(None)`. -/
theorem C6_counterexample :
    (fetch_chunk envX ⟨[], []⟩ { live_chunks := [], cached_chunks := [] }
        (ZERO_FILLED_CHUNK envX).1).1
      = .ok (some (ZERO_FILLED_CHUNK envX).2) ∧
    (fetch_chunk envX ⟨[], []⟩ { live_chunks := [], cached_chunks := [] }
        (ZERO_FILLED_CHUNK envX).1).1 ≠ .ok none := by
  constructor
  · decide
  · decide

/-- Claim C6 (amended): for every fingerprint that is not the zero-chunk
fingerprint, is not in the cache, and is absent from every configured local
cache and remote source, `fetch_chunk` returns the successful empty result
`Ok(None)` — not an error — and conversely it returns this absence only when
every configured source, local and remote, was consulted and answered
"not found". -/
theorem C6_absence_not_error (env : Env) (L : Loader) (s : CacheState)
    (fprint : Fingerprint)
    (hzero : fprint ≠ (ZERO_FILLED_CHUNK env).1)
    (hmiss : (fetch_from_cache s fprint).1 = none) :
    ((∀ c ∈ L.local_caches,
        load_from_cache (c (fingerprint_chunk_name fprint)) = .ok none) →
      (∀ r ∈ L.remote_sources,
        load_from_source (r (fingerprint_chunk_name fprint)) = .ok none) →
      fetch_chunk env L s fprint = (.ok none, s)) ∧
    ((fetch_chunk env L s fprint).1 = .ok none →
      (∀ c ∈ L.local_caches,
        load_from_cache (c (fingerprint_chunk_name fprint)) = .ok none) ∧
      (∀ r ∈ L.remote_sources,
        load_from_source (r (fingerprint_chunk_name fprint)) = .ok none)) := by
  constructor
  · intro hl hr
    have hwl : walk_local_caches env fprint (fingerprint_chunk_name fprint) s
        L.local_caches = (.ok none, s) :=
      walk_sources_all_none env fprint _ s L.local_caches hl
    rw [fetch_chunk_remote_phase env L s fprint hzero hmiss hwl]
    exact walk_sources_all_none env fprint _ s L.remote_sources hr
  · intro h
    rcases hwl : walk_local_caches env fprint (fingerprint_chunk_name fprint) s
        L.local_caches with ⟨r, s2⟩
    rcases r with e | co
    · have hfc := fetch_chunk_local_phase env L s fprint hzero hmiss
        (.error e) s2 hwl (by simp)
      rw [hfc] at h
      exact absurd h (by simp)
    · rcases co with _ | c
      · have hfst : (walk_local_caches env fprint (fingerprint_chunk_name fprint) s
            L.local_caches).1 = .ok none := by rw [hwl]
        obtain ⟨hall, heq⟩ :=
          walk_sources_fst_ok_none env fprint _ L.local_caches s hfst
        have hfc := fetch_chunk_remote_phase env L s fprint hzero hmiss heq
        rw [hfc] at h
        obtain ⟨hallr, _⟩ :=
          walk_sources_fst_ok_none env fprint _ L.remote_sources s h
        exact ⟨hall, hallr⟩
      · have hfc := fetch_chunk_local_phase env L s fprint hzero hmiss
          (.ok (some c)) s2 hwl (by simp)
        rw [hfc] at h
        exact absurd h (by simp)

theorem C6_absence_not_error_witness :
    fetch_chunk envX
        ⟨[fun _ => FsRead.notFound], [fun _ _ => GetResult.ok [] 404]⟩
        { live_chunks := [], cached_chunks := [] } { hash0 := 1, hash1 := 0 }
      = (.ok none, { live_chunks := [], cached_chunks := [] }) :=
  (C6_absence_not_error envX
      ⟨[fun _ => FsRead.notFound], [fun _ _ => GetResult.ok [] 404]⟩
      { live_chunks := [], cached_chunks := [] } { hash0 := 1, hash1 := 0 }
      (by decide) (by decide)).1
    (fun x hx => by rw [List.mem_singleton] at hx; subst hx; decide)
    (fun x hx => by rw [List.mem_singleton] at hx; subst hx; decide)

/-- Claim C7: a local cache directory read failure other than "file not
found" is surfaced from `fetch_chunk` as an error — it is not treated as the
chunk being absent, and the walk does not fall through to the remaining local
caches or to any remote source (the conclusion holds for arbitrary trailing
local caches and arbitrary remote sources). -/
theorem C7_local_io_error_surfaced (env : Env) (s : CacheState)
    (fprint : Fingerprint) (e : Nat)
    (ls1 ls2 : List (Fingerprint → FsRead)) (c : Fingerprint → FsRead)
    (rs : List (Fingerprint → Nat → GetResult))
    (hzero : fprint ≠ (ZERO_FILLED_CHUNK env).1)
    (hmiss : (fetch_from_cache s fprint).1 = none)
    (hbefore : ∀ x ∈ ls1, load_from_cache (x (fingerprint_chunk_name fprint)) = .ok none)
    (herr : c (fingerprint_chunk_name fprint) = .ioError e) :
    fetch_chunk env ⟨ls1 ++ c :: ls2, rs⟩ s fprint
      = (.error (.localIoError e), s) := by
  have hprobe : load_from_cache (c (fingerprint_chunk_name fprint))
      = .error (.localIoError e) := by
    rw [herr]; rfl
  have hwalk : walk_local_caches env fprint (fingerprint_chunk_name fprint) s
      (ls1 ++ c :: ls2) = (.error (.localIoError e), s) := by
    unfold walk_local_caches
    rw [walk_sources_append_none env fprint
      (fun cache => load_from_cache (cache (fingerprint_chunk_name fprint)))
      s ls1 (c :: ls2) hbefore]
    exact walk_sources_cons_probe_err env fprint _ s c ls2 (.localIoError e) hprobe
  exact fetch_chunk_local_phase env ⟨ls1 ++ c :: ls2, rs⟩ s fprint hzero hmiss
    (.error (.localIoError e)) s hwalk (by simp)

theorem C7_local_io_error_surfaced_witness :
    fetch_chunk envX ⟨[fun _ => FsRead.ioError 7], []⟩
        { live_chunks := [], cached_chunks := [] } { hash0 := 1, hash1 := 0 }
      = (.error (.localIoError 7), { live_chunks := [], cached_chunks := [] }) :=
  C7_local_io_error_surfaced envX { live_chunks := [], cached_chunks := [] }
    { hash0 := 1, hash1 := 0 } 7 [] [] (fun _ => FsRead.ioError 7) []
    (by decide) (by decide)
    (fun x hx => absurd hx (List.not_mem_nil x)) rfl

theorem lru_put_length_le (cache : LruList) (k : Fingerprint) (v : Chunk) :
    (lru_put cache k v).length ≤ LRU_CACHE_SIZE := by
  unfold lru_put
  exact List.length_take_le LRU_CACHE_SIZE _

theorem lru_put_head (cache : LruList) (k : Fingerprint) (v : Chunk) :
    (lru_put cache k v).head? = some (k, v) := by
  unfold lru_put
  rw [show LRU_CACHE_SIZE = (LRU_CACHE_SIZE - 1) + 1 from by decide,
    List.take_succ_cons]
  rfl

theorem lru_put_full_evicts (cache : LruList) (k : Fingerprint) (v : Chunk)
    (hlen : cache.length = LRU_CACHE_SIZE)
    (hk : k ∉ cache.map Prod.fst) :
    lru_put cache k v = (k, v) :: cache.dropLast := by
  have hfilter : cache.filter (fun p => p.1 ≠ k) = cache := by
    rw [List.filter_eq_self]
    intro a ha
    simp only [decide_eq_true_eq]
    intro hak
    exact hk (by rw [← hak]; exact List.mem_map_of_mem Prod.fst ha)
  unfold lru_put
  rw [hfilter,
    show LRU_CACHE_SIZE = (LRU_CACHE_SIZE - 1) + 1 from by decide,
    List.take_succ_cons]
  congr 1
  rw [List.dropLast_eq_take, hlen]

/-- Claim C8: the retention cache `CACHED_CHUNKS` never holds more than
`LRU_CACHE_SIZE = 128` entries (an invariant preserved by every operation:
`touch_cached_chunk`, `update_cache`, and `fetch_from_cache`); inserting into
a full cache under a fingerprint not already present evicts exactly the
least-recently-touched entry; and every successful lookup or insertion of a
fingerprint promotes that entry to the most-recently-used position. -/
theorem C8_lru_bounded_and_promotes (s : CacheState) (chunk : Chunk)
    (f : Fingerprint)
    (hlen : s.cached_chunks.length ≤ LRU_CACHE_SIZE) :
    ((touch_cached_chunk s chunk).cached_chunks.length ≤ LRU_CACHE_SIZE ∧
      (update_cache s chunk).cached_chunks.length ≤ LRU_CACHE_SIZE ∧
      (fetch_from_cache s f).2.cached_chunks.length ≤ LRU_CACHE_SIZE) ∧
    (s.cached_chunks.length = LRU_CACHE_SIZE →
      chunk.fprint ∉ s.cached_chunks.map Prod.fst →
      (touch_cached_chunk s chunk).cached_chunks
        = (chunk.fprint, chunk) :: s.cached_chunks.dropLast) ∧
    ((touch_cached_chunk s chunk).cached_chunks.head? = some (chunk.fprint, chunk) ∧
      (update_cache s chunk).cached_chunks.head? = some (chunk.fprint, chunk) ∧
      ∀ ch, (fetch_from_cache s f).1 = some ch →
        (fetch_from_cache s f).2.cached_chunks.head? = some (ch.fprint, ch)) := by
  refine ⟨⟨?_, ?_, ?_⟩, ?_, ?_, ?_, ?_⟩
  · exact lru_put_length_le _ _ _
  · exact lru_put_length_le _ _ _
  · cases hm : map_lookup s.live_chunks f with
    | none => simpa [fetch_from_cache, hm] using hlen
    | some w =>
      cases w with
      | none => simpa [fetch_from_cache, hm] using hlen
      | some c =>
        have h2 : (fetch_from_cache s f).2 = touch_cached_chunk s c := by
          simp [fetch_from_cache, hm]
        rw [h2]
        exact lru_put_length_le _ _ _
  · intro hfull hnotin
    exact lru_put_full_evicts s.cached_chunks chunk.fprint chunk hfull hnotin
  · exact lru_put_head _ _ _
  · exact lru_put_head _ _ _
  · intro ch hch
    cases hm : map_lookup s.live_chunks f with
    | none => rw [show (fetch_from_cache s f).1 = none from by simp [fetch_from_cache, hm]] at hch; exact absurd hch (by simp)
    | some w =>
      cases w with
      | none => rw [show (fetch_from_cache s f).1 = none from by simp [fetch_from_cache, hm]] at hch; exact absurd hch (by simp)
      | some c =>
        have h1 : (fetch_from_cache s f).1 = some c := by simp [fetch_from_cache, hm]
        rw [h1] at hch
        obtain rfl : c = ch := Option.some.inj hch
        have h2 : (fetch_from_cache s f).2 = touch_cached_chunk s c := by
          simp [fetch_from_cache, hm]
        rw [h2]
        exact lru_put_head _ _ _

/-- A full retention cache used by the C8 witness: 128 distinct entries. -/
def lruFull : LruList :=
  (List.range LRU_CACHE_SIZE).map
    (fun i => ({ hash0 := i, hash1 := 0 },
               { fprint := { hash0 := i, hash1 := 0 }, payload := [] }))

set_option maxRecDepth 4000 in
theorem C8_lru_bounded_and_promotes_witness :
    (touch_cached_chunk { live_chunks := [], cached_chunks := lruFull }
        { fprint := { hash0 := 200, hash1 := 0 }, payload := [] }).cached_chunks
      = ({ hash0 := 200, hash1 := 0 },
         { fprint := { hash0 := 200, hash1 := 0 }, payload := [] })
          :: lruFull.dropLast ∧
    (touch_cached_chunk { live_chunks := [], cached_chunks := lruFull }
        { fprint := { hash0 := 200, hash1 := 0 }, payload := [] }).cached_chunks.length
      ≤ LRU_CACHE_SIZE :=
  have h := C8_lru_bounded_and_promotes
    { live_chunks := [], cached_chunks := lruFull }
    { fprint := { hash0 := 200, hash1 := 0 }, payload := [] }
    { hash0 := 0, hash1 := 0 } (by decide)
  ⟨h.2.1 (by decide) (by decide), h.1.1⟩

theorem find?_eraseP_self (k : Fingerprint) :
    ∀ m : LiveMap, (m.map Prod.fst).Nodup →
      (m.eraseP (fun p => p.1 = k)).find? (fun p => p.1 = k) = none := by
  intro m
  induction m with
  | nil => intro _; rfl
  | cons a l ih =>
    intro hnodup
    rw [List.map_cons, List.nodup_cons] at hnodup
    obtain ⟨hnotin, hnd⟩ := hnodup
    by_cases ha : a.1 = k
    · rw [List.eraseP_cons_of_pos (by simp [ha])]
      rw [List.find?_eq_none]
      intro p hp
      simp only [decide_eq_true_eq]
      intro hpk
      exact hnotin (by rw [ha, ← hpk]; exact List.mem_map_of_mem Prod.fst hp)
    · rw [List.eraseP_cons_of_neg (by simp [ha]), List.find?_cons_of_neg]
      · exact ih hnd
      · simp [ha]

/-- Claim C9: when a `Chunk` is dropped, the drop hook removes the dedup-map
entry for the chunk's fingerprint, and when the removed entry's weak
reference still upgrades to a live chunk (a different, newer chunk registered
under the same fingerprint — the map invariant makes its fingerprint equal to
the key), the entry is reinserted rather than discarded, so the drop of an
old chunk never destroys the map entry of a newer live chunk with the same
fingerprint; a dangling entry is removed for good, and a missing entry leaves
the map unchanged. -/
theorem C9_drop_preserves_newer_entry (m : LiveMap) (fprint : Fingerprint)
    (c : Chunk) (hnodup : (m.map Prod.fst).Nodup) :
    (map_lookup m fprint = some (some c) → c.fprint = fprint →
      map_lookup (chunk_drop m fprint) fprint = some (some c)) ∧
    (map_lookup m fprint = some none →
      map_lookup (chunk_drop m fprint) fprint = none) ∧
    (map_lookup m fprint = none → chunk_drop m fprint = m) := by
  refine ⟨?_, ?_, ?_⟩
  · intro h hc
    have hstep : chunk_drop m fprint
        = map_insert (map_remove m fprint) c.fprint (some c) := by
      simp [chunk_drop, h]
    rw [hstep]
    simp [map_lookup, map_insert, List.find?_cons_of_pos, hc]
  · intro h
    have hstep : chunk_drop m fprint = map_remove m fprint := by
      simp [chunk_drop, h]
    rw [hstep]
    unfold map_lookup map_remove
    rw [find?_eraseP_self fprint m hnodup]
    rfl
  · intro h
    simp [chunk_drop, h]

theorem C9_drop_preserves_newer_entry_witness :
    map_lookup
        (chunk_drop
          [({ hash0 := 1, hash1 := 0 },
            some { fprint := { hash0 := 1, hash1 := 0 }, payload := [] }),
           ({ hash0 := 2, hash1 := 0 }, none)]
          { hash0 := 1, hash1 := 0 })
        { hash0 := 1, hash1 := 0 }
      = some (some { fprint := { hash0 := 1, hash1 := 0 }, payload := [] }) ∧
    map_lookup
        (chunk_drop
          [({ hash0 := 1, hash1 := 0 },
            some { fprint := { hash0 := 1, hash1 := 0 }, payload := [] }),
           ({ hash0 := 2, hash1 := 0 }, none)]
          { hash0 := 2, hash1 := 0 })
        { hash0 := 2, hash1 := 0 }
      = none :=
  ⟨(C9_drop_preserves_newer_entry
      [({ hash0 := 1, hash1 := 0 },
        some { fprint := { hash0 := 1, hash1 := 0 }, payload := [] }),
       ({ hash0 := 2, hash1 := 0 }, none)]
      { hash0 := 1, hash1 := 0 }
      { fprint := { hash0 := 1, hash1 := 0 }, payload := [] }
      (by decide)).1 (by decide) (by decide),
   (C9_drop_preserves_newer_entry
      [({ hash0 := 1, hash1 := 0 },
        some { fprint := { hash0 := 1, hash1 := 0 }, payload := [] }),
       ({ hash0 := 2, hash1 := 0 }, none)]
      { hash0 := 2, hash1 := 0 }
      { fprint := { hash0 := 2, hash1 := 0 }, payload := [] }
      (by decide)).2.1 (by decide)⟩

theorem collect_results_error_of_mem
    (fetch_one : Fingerprint → Except LoaderError (Option Chunk)) :
    ∀ (l : List Fingerprint) (f : Fingerprint) (e : LoaderError),
      f ∈ l → fetch_one f = .error e →
      ∃ e2, collect_results fetch_one l = .error e2 := by
  intro l
  induction l with
  | nil => intro f e hf _; exact absurd hf (List.not_mem_nil f)
  | cons a l ih =>
    intro f e hf hfe
    cases hfa : fetch_one a with
    | error ea => exact ⟨ea, by simp [collect_results, hfa]⟩
    | ok ca =>
      rcases List.mem_cons.mp hf with h1 | h1
      · subst h1
        rw [hfe] at hfa
        exact absurd hfa (by simp)
      · obtain ⟨e2, h2⟩ := ih f e h1 hfe
        exact ⟨e2, by simp [collect_results, hfa, h2]⟩

theorem collect_results_ok_of_forall
    (fetch_one : Fingerprint → Except LoaderError (Option Chunk)) :
    ∀ l : List Fingerprint, (∀ f ∈ l, ∃ r, fetch_one f = .ok r) →
      ∃ cs, collect_results fetch_one l = .ok cs := by
  intro l
  induction l with
  | nil => intro _; exact ⟨[], rfl⟩
  | cons a l ih =>
    intro h
    obtain ⟨ra, hra⟩ := h a (by simp)
    obtain ⟨cs, hcs⟩ := ih (fun f hf => h f (by simp [hf]))
    exact ⟨ra :: cs, by simp [collect_results, hra, hcs]⟩

theorem collect_results_ok_forall2
    (fetch_one : Fingerprint → Except LoaderError (Option Chunk)) :
    ∀ (l : List Fingerprint) (cs : List (Option Chunk)),
      collect_results fetch_one l = .ok cs →
      List.Forall₂ (fun f c => fetch_one f = .ok c) l cs := by
  intro l
  induction l with
  | nil =>
    intro cs h
    simp only [collect_results, Except.ok.injEq] at h
    subst h
    exact List.Forall₂.nil
  | cons a l ih =>
    intro cs h
    cases hfa : fetch_one a with
    | error ea => rw [show collect_results fetch_one (a :: l) = .error ea from by
        simp [collect_results, hfa]] at h; exact absurd h (by simp)
    | ok ca =>
      cases hcr : collect_results fetch_one l with
      | error e2 => rw [show collect_results fetch_one (a :: l) = .error e2 from by
          simp [collect_results, hfa, hcr]] at h; exact absurd h (by simp)
      | ok cs' =>
        rw [show collect_results fetch_one (a :: l) = .ok (ca :: cs') from by
          simp [collect_results, hfa, hcr]] at h
        obtain rfl : ca :: cs' = cs := Except.ok.inj h
        exact List.Forall₂.cons hfa (ih cs' hcr)

theorem chunk_entries_spec
    (fetch_one : Fingerprint → Except LoaderError (Option Chunk))
    (hfp : ∀ f c, fetch_one f = .ok (some c) → c.fprint = f) :
    ∀ (l : List Fingerprint) (cs : List (Option Chunk)),
      List.Forall₂ (fun f c => fetch_one f = .ok c) l cs →
      (∀ f ch, (f, ch) ∈ chunk_entries cs → fetch_one f = .ok (some ch)) ∧
      (∀ f, f ∈ (chunk_entries cs).map Prod.fst
        ↔ f ∈ l ∧ ∃ ch, fetch_one f = .ok (some ch)) ∧
      (l.Nodup → ((chunk_entries cs).map Prod.fst).Nodup) := by
  intro l cs h
  induction h with
  | nil => exact ⟨by simp [chunk_entries], by simp [chunk_entries], by simp [chunk_entries]⟩
  | @cons f c l' cs' hrel _ ih =>
    obtain ⟨ih1, ih2, ih3⟩ := ih
    cases c with
    | none =>
      have hent : chunk_entries (none :: cs') = chunk_entries cs' := by
        simp [chunk_entries]
      refine ⟨by rw [hent]; exact ih1, ?_, ?_⟩
      · intro f2
        rw [hent]
        constructor
        · intro h2
          obtain ⟨hmem, hfound⟩ := (ih2 f2).mp h2
          exact ⟨by simp [hmem], hfound⟩
        · intro ⟨hmem, hfound⟩
          rcases List.mem_cons.mp hmem with h1 | h1
          · subst h1
            obtain ⟨ch, hch⟩ := hfound
            rw [hrel] at hch
            exact absurd hch (by simp)
          · exact (ih2 f2).mpr ⟨h1, hfound⟩
      · intro hnd
        rw [hent]
        exact ih3 (List.Nodup.of_cons hnd)
    | some ch =>
      have hcf : ch.fprint = f := hfp f ch hrel
      have hent : chunk_entries (some ch :: cs') = (f, ch) :: chunk_entries cs' := by
        simp [chunk_entries, hcf]
      refine ⟨?_, ?_, ?_⟩
      · intro f2 ch2 h2
        rw [hent] at h2
        rcases List.mem_cons.mp h2 with h1 | h1
        · obtain ⟨rfl, rfl⟩ := Prod.mk.injEq .. ▸ h1
          · exact hrel
        · exact ih1 f2 ch2 h1
      · intro f2
        rw [hent]
        simp only [List.map_cons, List.mem_cons]
        constructor
        · intro h2
          rcases h2 with h1 | h1
          · subst h1; exact ⟨by simp, ch, hrel⟩
          · obtain ⟨hmem, hfound⟩ := (ih2 f2).mp h1
            exact ⟨by simp [hmem], hfound⟩
        · intro ⟨hmem, hfound⟩
          rcases hmem with h1 | h1
          · exact Or.inl h1
          · exact Or.inr ((ih2 f2).mpr ⟨h1, hfound⟩)
      · intro hnd
        rw [hent]
        rw [List.nodup_cons] at hnd
        obtain ⟨hninl, hndl⟩ := hnd
        simp only [List.map_cons]
        rw [List.nodup_cons]
        refine ⟨?_, ih3 hndl⟩
        intro hcontra
        obtain ⟨hmem, _⟩ := (ih2 f).mp hcontra
        exact hninl hmem

/-- Claim C2: `fetch_all_chunks` deduplicates its input before fetching; if
any individual fetch errors, the whole call returns an error (no
partial-success result); if every fetch succeeds the call succeeds, and a
fingerprint found in no source is simply omitted, so the returned mapping has
exactly one entry for each distinct input fingerprint whose fetch found a
chunk.  The random shuffle is any permutation, and `fetch_one` abstracts the
per-fingerprint `fetch_chunk` outcome (which always returns chunks keyed by
the requested fingerprint). -/
theorem C2_fetch_all_chunks_batch
    (fetch_one : Fingerprint → Except LoaderError (Option Chunk))
    (shuffle : List Fingerprint → List Fingerprint) (fprints : List Fingerprint)
    (hshuffle : ∀ l, (shuffle l).Perm l)
    (hfp : ∀ f c, fetch_one f = .ok (some c) → c.fprint = f) :
    ((∃ f ∈ fprints, ∃ e, fetch_one f = .error e) →
      ∃ e, fetch_all_chunks fetch_one shuffle fprints = .error e) ∧
    ((∀ f ∈ fprints, ∃ r, fetch_one f = .ok r) →
      ∃ m, fetch_all_chunks fetch_one shuffle fprints = .ok m) ∧
    (∀ m, fetch_all_chunks fetch_one shuffle fprints = .ok m →
      (∀ f ch, (f, ch) ∈ m → fetch_one f = .ok (some ch)) ∧
      (∀ f, f ∈ m.map Prod.fst ↔ f ∈ fprints ∧ ∃ ch, fetch_one f = .ok (some ch)) ∧
      (m.map Prod.fst).Nodup) := by
  have hperm : (shuffle fprints.dedup).Perm fprints.dedup := hshuffle fprints.dedup
  have hmem : ∀ f, f ∈ shuffle fprints.dedup ↔ f ∈ fprints := by
    intro f
    rw [hperm.mem_iff, List.mem_dedup]
  refine ⟨?_, ?_, ?_⟩
  · intro ⟨f, hf, e, he⟩
    obtain ⟨e2, h2⟩ := collect_results_error_of_mem fetch_one
      (shuffle fprints.dedup) f e ((hmem f).mpr hf) he
    exact ⟨e2, by simp [fetch_all_chunks, h2]⟩
  · intro h
    obtain ⟨cs, hcs⟩ := collect_results_ok_of_forall fetch_one
      (shuffle fprints.dedup) (fun f hf => h f ((hmem f).mp hf))
    exact ⟨chunk_entries cs, by simp [fetch_all_chunks, hcs]⟩
  · intro m hm
    cases hcr : collect_results fetch_one (shuffle fprints.dedup) with
    | error e =>
      rw [show fetch_all_chunks fetch_one shuffle fprints = .error e from by
        simp [fetch_all_chunks, hcr]] at hm
      exact absurd hm (by simp)
    | ok cs =>
      rw [show fetch_all_chunks fetch_one shuffle fprints = .ok (chunk_entries cs) from by
        simp [fetch_all_chunks, hcr]] at hm
      obtain rfl : chunk_entries cs = m := Except.ok.inj hm
      have hf2 := collect_results_ok_forall2 fetch_one (shuffle fprints.dedup) cs hcr
      obtain ⟨h1, h2, h3⟩ := chunk_entries_spec fetch_one hfp
        (shuffle fprints.dedup) cs hf2
      refine ⟨h1, ?_, ?_⟩
      · intro f
        rw [h2 f, hmem f]
      · exact h3 (hperm.nodup_iff.mpr fprints.nodup_dedup)

theorem C2_fetch_all_chunks_batch_witness :
    (∃ e, fetch_all_chunks (fun _ => .error (.retryLimitExceeded (.err 0))) id
      [{ hash0 := 1, hash1 := 0 }] = .error e) ∧
    (∃ m, fetch_all_chunks (fun f => .ok (some { fprint := f, payload := [] })) id
      [{ hash0 := 1, hash1 := 0 }, { hash0 := 1, hash1 := 0 },
       { hash0 := 2, hash1 := 0 }] = .ok m) :=
  ⟨(C2_fetch_all_chunks_batch (fun _ => .error (.retryLimitExceeded (.err 0))) id
      [{ hash0 := 1, hash1 := 0 }]
      (fun l => List.Perm.refl l)
      (fun _ _ h => nomatch h)).1
    ⟨{ hash0 := 1, hash1 := 0 }, by simp, .retryLimitExceeded (.err 0), rfl⟩,
   (C2_fetch_all_chunks_batch (fun f => .ok (some { fprint := f, payload := [] })) id
      [{ hash0 := 1, hash1 := 0 }, { hash0 := 1, hash1 := 0 },
       { hash0 := 2, hash1 := 0 }]
      (fun l => List.Perm.refl l)
      (fun f c h => by
        obtain rfl := Option.some.inj (Except.ok.inj h)
        rfl)).2.1
    (fun f _ => ⟨some { fprint := f, payload := [] }, rfl⟩)⟩

end Verneuil
